import Mathlib

/-!
Shallow embedding of the allow2automate-steam plugin (src/index.js,
src/services/SteamMonitor.js, src/services/SteamVDFParser.js) and proofs
of the specification's claims about it.

JavaScript objects are modelled as Lean structures with `Option` fields
for properties that may be absent or null; the plugin state's keyed
objects (`state.agents`, `state.policies`) are modelled as association
lists in insertion order, matching `Object.values` enumeration order.
Numbers that only ever hold integral values are modelled as `Int`/`Nat`.
External services (agent service, filesystem, VDF decoder) are passed in
as explicit function parameters; a call that may fail is driven by a
boolean success parameter, and a thrown exception that escapes a
function is modelled by an `Option`-valued result being `none`.
-/

/-- JS `x || d` on a possibly-absent string (undefined/null/empty are falsy). -/
def jsOrStr (o : Option String) (d : String) : String :=
  match o with
  | none => d
  | some s => if s = "" then d else s

/-- JS `x || d` on a possibly-absent number (undefined/null/0 are falsy). -/
def jsOrNat (o : Option Nat) (d : Nat) : Nat :=
  match o with
  | none => d
  | some t => if t = 0 then d else t

/-- Lookup in an association list keyed by strings, i.e. `obj[k]`. -/
def alookup {α : Type} (k : String) : List (String × α) → Option α
  | [] => none
  | p :: rest => if p.1 = k then some p.2 else alookup k rest

/-- Keyed assignment `obj[k] = v`: replace in place, or append a new key. -/
def aset {α : Type} (k : String) (v : α) : List (String × α) → List (String × α)
  | [] => [(k, v)]
  | p :: rest => if p.1 = k then (k, v) :: rest else p :: aset k v rest

/-- Does the character list start with the pattern? -/
def startsWithChars : List Char → List Char → Bool
  | [], _ => true
  | _ :: _, [] => false
  | a :: as, b :: bs => a = b && startsWithChars as bs

/-- Does the character list contain the pattern as a contiguous run?
JS `String.prototype.includes`. -/
def containsChars (pat : List Char) : List Char → Bool
  | [] => startsWithChars pat []
  | c :: rest => startsWithChars pat (c :: rest) || containsChars pat rest

/-- Model of `s.toLowerCase()` over the characters of a string. -/
def lowerChars (s : String) : List Char :=
  s.toList.map Char.toLower

/-- The violation filter `processName?.toLowerCase().includes('steam')`
applied to a possibly-absent process name (absent lowers to `''`). -/
def steamNameFilter (processName : Option String) : Bool :=
  containsChars "steam".toList (lowerChars (processName.getD ""))

/-! ## Data model (plugin state, src/index.js onLoad) -/

/-- One record of `state.agents` (shapes vary across the code paths that
create it, hence the optional fields). -/
structure AgentRec where
  id : String
  hostname : Option String := none
  platform : Option String := none
  enabled : Option Bool := none
  childId : Option String := none
  lastSeen : Option Nat := none
  allowed : Option Bool := none
  lastUpdate : Option Nat := none
  deriving DecidableEq

/-- One record of `state.policies`. -/
structure PolicyRec where
  processName : String
  alternativeProcesses : List String
  allowed : Bool
  checkInterval : Int
  createdAt : Nat
  deriving DecidableEq

/-- One entry of `state.violations`. -/
structure Violation where
  agentId : String
  processName : Option String
  timestamp : Nat
  hostname : String
  deriving DecidableEq

/-- The record `state.settings`. -/
structure Settings where
  checkInterval : Int
  killOnViolation : Bool
  notifyParent : Bool
  deriving DecidableEq

/-- A partial settings object passed to the update-settings handler:
spread keys that are present override, absent keys are kept. -/
structure SettingsPatch where
  checkInterval : Option Int := none
  killOnViolation : Option Bool := none
  notifyParent : Option Bool := none
  deriving DecidableEq

/-- The plugin state aggregate. -/
structure PluginState where
  agents : List (String × AgentRec)
  policies : List (String × PolicyRec)
  violations : List Violation
  settings : Settings
  deriving DecidableEq

/-- A live agent record as returned by the external agent service. -/
structure Agent where
  id : String
  hostname : Option String := none
  platform : Option String := none
  online : Bool := true
  deriving DecidableEq

/-- The payload of an authorization `stateChange` event. -/
structure Allow2State where
  paused : Bool
  quota : Int
  deriving DecidableEq

/-- The payload of a `violation` / `processDetected` agent event. -/
structure ViolationData where
  agentId : String
  processName : Option String
  timestamp : Option Nat
  hostname : String
  deriving DecidableEq

/-- Default settings installed by `onLoad` for a fresh state. -/
def initialSettings : Settings :=
  { checkInterval := 30000, killOnViolation := true, notifyParent := true }

/-- Fresh plugin state created by `onLoad` when nothing was persisted. -/
def initialState : PluginState :=
  { agents := [], policies := [], violations := [], settings := initialSettings }

/-! ## Platform process-name table (src/index.js configureSteamPolicy and
SteamMonitor.getProcessNames share the same literal table) -/

def winProcessNames : List String := ["Steam.exe", "steamwebhelper.exe", "gameoverlayui.exe"]

def darwinProcessNames : List String := ["steam_osx", "Steam.app", "steamwebhelper"]

def linuxProcessNames : List String := ["steam", "steamwebhelper", "reaper"]

/-- The object literal `processNames` indexed by a platform key:
`processNames[platform]` is `undefined` (here `none`) off the known keys. -/
def processNamesTable (platform : String) : Option (List String) :=
  if platform = "win32" then some winProcessNames
  else if platform = "darwin" then some darwinProcessNames
  else if platform = "linux" then some linuxProcessNames
  else none

/-- SteamMonitor.getProcessNames: `processNames[platform] || processNames.win32`. -/
def getProcessNames (platform : String) : List String :=
  (processNamesTable platform).getD winProcessNames

/-! ## Violation log (src/index.js handleViolation) -/

/-- The violation record built by handleViolation
(`timestamp: data.timestamp || Date.now()`). -/
def mkViolation (data : ViolationData) (now : Nat) : Violation :=
  { agentId := data.agentId
    processName := data.processName
    timestamp := jsOrNat data.timestamp now
    hostname := data.hostname }

/-- The append `state.violations.unshift(v)` followed by
`if (length > 100) slice(0, 100)`. -/
def appendViolation (v : Violation) (log : List Violation) : List Violation :=
  let l := v :: log
  if l.length > 100 then l.take 100 else l

/-- Host-context capabilities tested for truthiness by the plugin. -/
structure Ctx where
  hasSendToRenderer : Bool
  hasLogActivity : Bool
  deriving DecidableEq

/-- An entry written to the activity feed by handleViolation. -/
structure Activity where
  kind : String
  message : String
  timestamp : Nat
  severity : String
  deriving DecidableEq

/-- handleViolation: append to the capped log, forward a steamViolation
notification when notifyParent is set and a renderer sink exists, and
emit one activity entry when an activity log exists. Returns the new
state, the forwarded notifications and the activity entries. -/
def handleViolation (cx : Ctx) (data : ViolationData) (now : Nat) (st : PluginState) :
    PluginState × List Violation × List Activity :=
  let v := mkViolation data now
  let st1 := { st with violations := appendViolation v st.violations }
  let notifs := if st.settings.notifyParent && cx.hasSendToRenderer then [v] else []
  let acts :=
    if cx.hasLogActivity then
      [{ kind := "steam_blocked"
         message := "Steam was blocked on " ++ data.hostname
         timestamp := v.timestamp
         severity := "warning" }]
    else []
  (st1, notifs, acts)

/-- The agent-service `violation` event listener: apply the process-name
filter, and only when it passes run handleViolation. The final Bool
records whether the event was processed. -/
def violationEvent (cx : Ctx) (data : ViolationData) (now : Nat) (st : PluginState) :
    (PluginState × List Violation × List Activity) × Bool :=
  if steamNameFilter data.processName then
    (handleViolation cx data now st, true)
  else
    ((st, [], []), false)

/-- The getViolations request handler: `state.violations.slice(0, limit)`. -/
def getViolationsHandler (limit : Nat) (st : PluginState) : List Violation :=
  st.violations.take limit

/-! ## Policy configuration (src/index.js configureSteamPolicy) -/

/-- The createPolicy payload sent to the external agent service (the
metadata block, constant strings, is omitted). -/
structure CreatePolicyCall where
  agentId : String
  processName : String
  processAlternatives : List String
  allowed : Bool
  checkInterval : Int
  onDetected : String
  onViolation : String
  deriving DecidableEq

/-- configureSteamPolicy. `createOk` is whether the external createPolicy
call succeeds; a failure is caught inside the function (state left
unchanged). The platform lookup `processNames[platform][0]` is outside
the try block: an unknown non-empty platform indexes `undefined` and the
thrown TypeError escapes the function, modelled by `none`. On `some`,
the issued call is returned together with the post-state. -/
def configureSteamPolicy (createOk : Bool) (ag : Agent) (now : Nat) (st : PluginState) :
    Option (CreatePolicyCall × PluginState) :=
  let platform := jsOrStr ag.platform "win32"
  match processNamesTable platform with
  | none => none
  | some names =>
    let mainProcess := names.headD ""
    let call : CreatePolicyCall :=
      { agentId := ag.id
        processName := mainProcess
        processAlternatives := names
        allowed := false
        checkInterval := st.settings.checkInterval
        onDetected := "check-quota"
        onViolation := if st.settings.killOnViolation then "kill-process" else "notify-only" }
    if createOk then
      let pol : PolicyRec :=
        { processName := mainProcess
          alternativeProcesses := names
          allowed := false
          checkInterval := st.settings.checkInterval
          createdAt := now }
      some (call, { st with policies := aset ag.id pol st.policies })
    else
      some (call, st)

/-- The onLoad fan-out: `for (const agent of agents) await
configureSteamPolicy(agent)`. A TypeError escaping configureSteamPolicy
is caught by onLoad's surrounding try, stopping the loop; a createPolicy
failure is caught inside configureSteamPolicy and the loop continues.
Returns the post-state and the createPolicy calls attempted, in order. -/
def configureAll (createOk : String → Bool) (now : Nat) :
    List Agent → PluginState → PluginState × List CreatePolicyCall
  | [], st => (st, [])
  | a :: rest, st =>
    match configureSteamPolicy (createOk a.id) a now st with
    | none => (st, [])
    | some (call, st1) =>
      let r := configureAll createOk now rest st1
      (r.1, call :: r.2)

/-! ## Policy reconciliation (src/index.js updateSteamPolicy and the
allow2 stateChange listener) -/

/-- The updatePolicy payload issued by updateSteamPolicy. -/
structure UpdatePolicyCall where
  agentId : String
  processName : String
  allowed : Bool
  deriving DecidableEq

/-- `state.agents[k].allowed = v; state.agents[k].lastUpdate = now` when
the key is present (the source guards with `if (state.agents[agent.id])`). -/
def setAgentAllowed (k : String) (v : Bool) (now : Nat)
    (ags : List (String × AgentRec)) : List (String × AgentRec) :=
  ags.map fun p =>
    if p.1 = k then (p.1, { p.2 with allowed := some v, lastUpdate := some now }) else p

/-- updateSteamPolicy: derive `steamAllowed = !paused && quota > 0`, issue
an updatePolicy call carrying the registered policy's process name
(default 'Steam.exe'), and on success record the allowed value on the
stored agent record. `ok` is whether the external updatePolicy call
succeeds; on failure the error is caught and the state is unchanged. -/
def updateSteamPolicy (ok : Bool) (ag : Agent) (a2 : Allow2State) (now : Nat)
    (st : PluginState) : PluginState × UpdatePolicyCall :=
  let steamAllowed := !a2.paused && decide (a2.quota > 0)
  let pname := ((alookup ag.id st.policies).map PolicyRec.processName).getD "Steam.exe"
  let call : UpdatePolicyCall := { agentId := ag.id, processName := pname, allowed := steamAllowed }
  if ok then
    ({ st with agents := setAgentAllowed ag.id steamAllowed now st.agents }, call)
  else
    (st, call)

/-- The loop body of the stateChange listener over the agents linked to
the child: re-fetch each live agent (a getAgent failure or null result
is caught/skipped and the loop continues) and run updateSteamPolicy. -/
def stateChangeGo (getAgent : String → Option Agent) (updateOk : String → Bool)
    (a2 : Allow2State) (now : Nat) :
    List AgentRec → PluginState → PluginState × List UpdatePolicyCall
  | [], st => (st, [])
  | ar :: rest, st =>
    match getAgent ar.id with
    | none => stateChangeGo getAgent updateOk a2 now rest st
    | some ag =>
      let r1 := updateSteamPolicy (updateOk ag.id) ag a2 now st
      let r2 := stateChangeGo getAgent updateOk a2 now rest r1.1
      (r2.1, r1.2 :: r2.2)

/-- The allow2 `stateChange` listener: filter
`Object.values(state.agents)` to the records linked to the child, then
reconcile each in order. -/
def stateChangeHandler (getAgent : String → Option Agent) (updateOk : String → Bool)
    (childId : String) (a2 : Allow2State) (now : Nat) (st : PluginState) :
    PluginState × List UpdatePolicyCall :=
  let linked := (st.agents.filter fun p => p.2.childId = some childId).map Prod.snd
  stateChangeGo getAgent updateOk a2 now linked st

/-! ## Request handlers (src/index.js setupIPCHandlers) -/

/-- steam:linkAgent — create `{ id: agentId }` when absent, then set
childId and enabled. The Bool is the returned success flag. -/
def linkAgentHandler (agentId childId : String) (st : PluginState) : PluginState × Bool :=
  let agents0 :=
    match alookup agentId st.agents with
    | some _ => st.agents
    | none => aset agentId { id := agentId } st.agents
  let agents1 := agents0.map fun p =>
    if p.1 = agentId then (p.1, { p.2 with childId := some childId, enabled := some true })
    else p
  ({ st with agents := agents1 }, true)

/-- steam:unlinkAgent — when the agent exists, null its childId and
disable it; always return success. -/
def unlinkAgentHandler (agentId : String) (st : PluginState) : PluginState × Bool :=
  let agents1 :=
    match alookup agentId st.agents with
    | some _ =>
      st.agents.map fun p =>
        if p.1 = agentId then (p.1, { p.2 with childId := none, enabled := some false })
        else p
    | none => st.agents
  ({ st with agents := agents1 }, true)

/-- The spread merge `{ ...state.settings, ...settings }`. -/
def mergeSettings (s : Settings) (p : SettingsPatch) : Settings :=
  { checkInterval := p.checkInterval.getD s.checkInterval
    killOnViolation := p.killOnViolation.getD s.killOnViolation
    notifyParent := p.notifyParent.getD s.notifyParent }

/-- The per-agent updatePolicy loop of steam:updateSettings. It runs
inside the handler's single try/catch, so the first failing call aborts
the loop. Returns the agent ids whose updatePolicy call was attempted
and whether the loop completed without an exception. -/
def propagateCheckInterval (updateOk : String → Bool)
    (policies : List (String × PolicyRec)) : List Agent → List String × Bool
  | [] => ([], true)
  | a :: rest =>
    match alookup a.id policies with
    | some _ =>
      if updateOk a.id then
        let r := propagateCheckInterval updateOk policies rest
        (a.id :: r.1, r.2)
      else
        ([a.id], false)
    | none => propagateCheckInterval updateOk policies rest

/-- steam:updateSettings — merge the patch into settings first, then if
`settings.checkInterval` is truthy fan the new interval out to every
agent with a registered policy. `liveAgents` is the listAgents result.
Returns the post-state, the success flag (false means the handler
returned `[error]`), and the attempted per-agent calls. -/
def updateSettingsHandler (liveAgents : List Agent) (updateOk : String → Bool)
    (patch : SettingsPatch) (st : PluginState) : PluginState × Bool × List String :=
  let st1 := { st with settings := mergeSettings st.settings patch }
  match patch.checkInterval with
  | some ci =>
    if ci ≠ 0 then
      let r := propagateCheckInterval updateOk st1.policies liveAgents
      (st1, r.2, r.1)
    else (st1, true, [])
  | none => (st1, true, [])

/-- steam:getSettings — returns `state.settings`. -/
def getSettingsHandler (st : PluginState) : Settings :=
  st.settings

/-! ## VDF parse cache (src/services/SteamVDFParser.js parseFile) -/

/-- The filesystem visible to parseFile: per path, the readable content
and the stat mtime; `none` means reads/stats of the path throw. -/
def FileSys : Type := String → Option (String × Nat)

/-- The parse cache: path ↦ (cached data, cached mtime). -/
def VCache (α : Type) : Type := List (String × (α × Nat))

/-- The try block of SteamVDFParser.parseFile: read the file, decode it
with the third-party `vdf.parse` (`dec`; `none` = decode error,
rethrown), stat it again and replace the cache entry. The Bool in the
result records that the file really was read and decoded. -/
def freshParse {α : Type} (dec : String → Option α) (fs : FileSys)
    (cache : VCache α) (filePath : String) : Option (α × VCache α × Bool) :=
  match fs filePath with
  | none => none
  | some (content, mtime) =>
    match dec content with
    | none => none
    | some d => some (d, aset filePath (d, mtime) cache, true)

/-- SteamVDFParser.parseFile. The result carries the parsed data, the
updated cache, and whether the file was actually read and decoded on
this call; `none` models an exception escaping parseFile. -/
def parseFile {α : Type} (dec : String → Option α) (fs : FileSys)
    (cache : VCache α) (filePath : String) (useCache : Bool) :
    Option (α × VCache α × Bool) :=
  if useCache then
    match alookup filePath cache with
    | some (d, cachedMtime) =>
      match fs filePath with
      | none => none
      | some (_, mtime) =>
        if cachedMtime = mtime then some (d, cache, false)
        else freshParse dec fs cache filePath
    | none => freshParse dec fs cache filePath
  else freshParse dec fs cache filePath

/-! ## Helper lemmas about the association-list operations -/

theorem alookup_aset_self {α : Type} (k : String) (v : α) (m : List (String × α)) :
    alookup k (aset k v m) = some v := by
  induction m with
  | nil => simp [aset, alookup]
  | cons p rest ih =>
    by_cases h : p.1 = k
    · simp [aset, alookup, h]
    · simp [aset, alookup, h, ih]

theorem alookup_map_update {α : Type} (k : String) (f : α → α) (l : List (String × α)) :
    alookup k (l.map fun p => if p.1 = k then (p.1, f p.2) else p)
      = (alookup k l).map f := by
  induction l with
  | nil => simp [alookup]
  | cons p rest ih =>
    by_cases h : p.1 = k
    · simp [alookup, h]
    · simp [alookup, h, ih]

theorem alookup_map_update_ne {α : Type} (k k2 : String) (hne : k ≠ k2) (f : α → α)
    (l : List (String × α)) :
    alookup k (l.map fun p => if p.1 = k2 then (p.1, f p.2) else p)
      = alookup k l := by
  induction l with
  | nil => simp [alookup]
  | cons p rest ih =>
    by_cases h : p.1 = k2
    · have hk2 : ¬(k2 = k) := fun hc => hne hc.symm
      simp [alookup, h, hk2, ih]
    · simp [alookup, h, ih]

theorem alookup_isSome_of_mem {α : Type} (k : String) (r : α) (l : List (String × α))
    (h : (k, r) ∈ l) : (alookup k l).isSome := by
  induction l with
  | nil => cases h
  | cons p rest ih =>
    rcases List.mem_cons.mp h with h1 | h1
    · simp [alookup, ← h1]
    · by_cases h2 : p.1 = k
      · simp [alookup, h2]
      · simp [alookup, h2, ih h1]

/-! ## C3: violation-log cap -/

theorem appendViolation_eq_take (v : Violation) (log : List Violation) :
    appendViolation v log = (v :: log).take 100 := by
  unfold appendViolation
  by_cases h : (v :: log).length > 100
  · simp [h]
  · simp only [h, if_neg, ite_false]
    rw [List.take_of_length_le (by omega)]

theorem appendViolation_length (v : Violation) (log : List Violation) :
    (appendViolation v log).length = min (log.length + 1) 100 := by
  rw [appendViolation_eq_take]
  simp [List.length_take]
  omega

theorem violationFoldLength (vs : List Violation) (log : List Violation)
    (h : log.length ≤ 100) :
    (vs.foldl (fun l v => appendViolation v l) log).length
      = min (log.length + vs.length) 100 := by
  induction vs generalizing log with
  | nil => simp; omega
  | cons v rest ih =>
    simp only [List.foldl_cons]
    rw [ih (appendViolation v log) (by rw [appendViolation_length]; omega)]
    rw [appendViolation_length]
    simp only [List.length_cons]
    omega

theorem violationFoldHead (vs : List Violation) (log : List Violation) (h : vs ≠ []) :
    (vs.foldl (fun l v => appendViolation v l) log).head? = vs.getLast? := by
  induction vs generalizing log with
  | nil => exact absurd rfl h
  | cons v rest ih =>
    cases rest with
    | nil =>
      simp only [List.foldl_cons, List.foldl_nil]
      rw [appendViolation_eq_take]
      simp
    | cons w ws =>
      have h2 := ih (appendViolation v log) (by simp)
      simp only [List.foldl_cons] at h2 ⊢
      rw [h2, List.getLast?_cons_cons]

/-- C3: after N appends to an empty violation log the length is
min(N, 100), the head is always the most recently appended record, and
each append keeps the newest 100 records (evicting only the oldest). -/
theorem c3_violation_log_cap (vs : List Violation) :
    ((vs.foldl (fun l v => appendViolation v l) []).length = min vs.length 100)
    ∧ (vs ≠ [] → (vs.foldl (fun l v => appendViolation v l) []).head? = vs.getLast?)
    ∧ (∀ v log, appendViolation v log = (v :: log).take 100) := by
  refine ⟨?_, ?_, ?_⟩
  · rw [violationFoldLength vs [] (by simp)]; simp
  · intro h; exact violationFoldHead vs [] h
  · exact appendViolation_eq_take

/-- Witness for C3 at a concrete two-element append sequence. -/
theorem c3_witness :
    (([{ agentId := "a1", processName := some "Steam.exe", timestamp := 1, hostname := "h1" },
       { agentId := "a2", processName := some "Steam.exe", timestamp := 2, hostname := "h2" }] :
        List Violation).foldl (fun l v => appendViolation v l) []).head?
      = some { agentId := "a2", processName := some "Steam.exe", timestamp := 2, hostname := "h2" } := by
  have h := c3_violation_log_cap
    [{ agentId := "a1", processName := some "Steam.exe", timestamp := 1, hostname := "h1" },
     { agentId := "a2", processName := some "Steam.exe", timestamp := 2, hostname := "h2" }]
  rw [h.2.1 (by simp)]
  rfl

/-! ## C5 / C6: policy configuration and the platform table -/

theorem configureSteamPolicy_eq (ok : Bool) (ag : Agent) (now : Nat) (st : PluginState)
    (names : List String)
    (h : processNamesTable (jsOrStr ag.platform "win32") = some names) :
    configureSteamPolicy ok ag now st =
      some ({ agentId := ag.id
              processName := names.headD ""
              processAlternatives := names
              allowed := false
              checkInterval := st.settings.checkInterval
              onDetected := "check-quota"
              onViolation := if st.settings.killOnViolation then "kill-process" else "notify-only" },
            if ok then
              { st with policies := aset ag.id { processName := names.headD "", alternativeProcesses := names, allowed := false, checkInterval := st.settings.checkInterval, createdAt := now } st.policies }
            else st) := by
  unfold configureSteamPolicy
  simp only [h]
  cases ok <;> simp

theorem configureSteamPolicy_unknown (ok : Bool) (ag : Agent) (now : Nat) (st : PluginState)
    (p : String) (hp : ag.platform = some p)
    (h1 : p ≠ "win32") (h2 : p ≠ "darwin") (h3 : p ≠ "linux") (h4 : p ≠ "") :
    configureSteamPolicy ok ag now st = none := by
  unfold configureSteamPolicy
  have : jsOrStr ag.platform "win32" = p := by simp [jsOrStr, hp, h4]
  rw [this]
  simp [processNamesTable, h1, h2, h3]

/-- C5: every createPolicy call issued at discovery/listing carries
allowed=false, the platform's process-name list with the main name
first, the configured check interval, onDetected check-quota, and
onViolation kill-process exactly when kill-on-violation is set; on a
successful call the stored policy record likewise has allowed=false. -/
theorem c5_create_policy_defaults (ok : Bool) (ag : Agent) (now : Nat) (st : PluginState)
    (names : List String)
    (h : processNamesTable (jsOrStr ag.platform "win32") = some names) :
    ∃ st1,
      configureSteamPolicy ok ag now st =
        some ({ agentId := ag.id
                processName := names.headD ""
                processAlternatives := names
                allowed := false
                checkInterval := st.settings.checkInterval
                onDetected := "check-quota"
                onViolation := if st.settings.killOnViolation then "kill-process" else "notify-only" },
              st1)
      ∧ (ok = true →
          ∃ pol, alookup ag.id st1.policies = some pol
            ∧ pol.allowed = false
            ∧ pol.processName = names.headD ""
            ∧ pol.alternativeProcesses = names
            ∧ pol.checkInterval = st.settings.checkInterval) := by
  refine ⟨if ok then
      { st with policies := aset ag.id { processName := names.headD "", alternativeProcesses := names, allowed := false, checkInterval := st.settings.checkInterval, createdAt := now } st.policies }
    else st, ?_, ?_⟩
  · exact configureSteamPolicy_eq ok ag now st names h
  · intro hok
    subst hok
    simp only [ite_true, if_pos]
    exact ⟨_, alookup_aset_self ag.id _ st.policies, rfl, rfl, rfl, rfl⟩

/-- Witness for C5: a Windows agent against the initial state. -/
theorem c5_witness :
    ∃ st1,
      configureSteamPolicy true { id := "a1", platform := some "win32" } 7 initialState =
        some ({ agentId := "a1"
                processName := "Steam.exe"
                processAlternatives := winProcessNames
                allowed := false
                checkInterval := 30000
                onDetected := "check-quota"
                onViolation := "kill-process" }, st1)
      ∧ ∃ pol, alookup "a1" st1.policies = some pol ∧ pol.allowed = false := by
  have h := c5_create_policy_defaults true { id := "a1", platform := some "win32" } 7
    initialState winProcessNames (by decide)
  rcases h with ⟨st1, heq, hstore⟩
  rcases hstore rfl with ⟨pol, hpol, hfalse, -, -, -⟩
  exact ⟨st1, by simpa [winProcessNames, initialState, initialSettings] using heq, pol, hpol, hfalse⟩

/-- C6 counterexample: the claim asserts the configure-path lookup also
falls back to the Windows list for an unknown platform tag, but for an
agent whose platform is the unknown tag "freebsd" the lookup throws
(models as `none`) and no createPolicy call is issued, while the
standalone getProcessNames lookup does fall back. -/
theorem c6_counterexample :
    configureSteamPolicy true { id := "a1", platform := some "freebsd" } 0 initialState = none
    ∧ getProcessNames "freebsd" = winProcessNames := by
  constructor
  · rfl
  · rfl

/-- C6 (amended): the standalone processNames lookup returns each known
platform's documented three-name list (main name first) and falls back
to the Windows list for every unknown platform identifier; the
configure-path lookup falls back only when the agent's platform tag is
missing or empty — for an unknown non-empty tag configureSteamPolicy
throws and issues no createPolicy call. -/
theorem c6_platform_fallback :
    (∀ p : String, p ≠ "win32" → p ≠ "darwin" → p ≠ "linux" →
      getProcessNames p = winProcessNames)
    ∧ getProcessNames "win32" = ["Steam.exe", "steamwebhelper.exe", "gameoverlayui.exe"]
    ∧ getProcessNames "darwin" = ["steam_osx", "Steam.app", "steamwebhelper"]
    ∧ getProcessNames "linux" = ["steam", "steamwebhelper", "reaper"]
    ∧ (∀ (ok : Bool) (ag : Agent) (now : Nat) (st : PluginState) (p : String),
        ag.platform = some p → p ≠ "win32" → p ≠ "darwin" → p ≠ "linux" → p ≠ "" →
        configureSteamPolicy ok ag now st = none)
    ∧ (∀ (ok : Bool) (ag : Agent) (now : Nat) (st : PluginState),
        ag.platform = none →
        (configureSteamPolicy ok ag now st).map (fun r => r.1.processAlternatives)
          = some winProcessNames) := by
  refine ⟨?_, rfl, rfl, rfl, ?_, ?_⟩
  · intro p h1 h2 h3
    simp [getProcessNames, processNamesTable, h1, h2, h3]
  · intro ok ag now st p hp h1 h2 h3 h4
    exact configureSteamPolicy_unknown ok ag now st p hp h1 h2 h3 h4
  · intro ok ag now st hp
    have h : processNamesTable (jsOrStr ag.platform "win32") = some winProcessNames := by
      simp [jsOrStr, hp, processNamesTable]
    rw [configureSteamPolicy_eq ok ag now st winProcessNames h]
    rfl

/-- Witness for C6 (amended) at the unknown platform "freebsd" and a
platform-less agent. -/
theorem c6_witness :
    getProcessNames "freebsd" = winProcessNames
    ∧ configureSteamPolicy true { id := "a9", platform := some "freebsd" } 3 initialState = none
    ∧ (configureSteamPolicy true { id := "a9", platform := none } 3 initialState).map
        (fun r => r.1.processAlternatives) = some winProcessNames := by
  refine ⟨?_, ?_, ?_⟩
  · exact c6_platform_fallback.1 "freebsd" (by decide) (by decide) (by decide)
  · exact c6_platform_fallback.2.2.2.2.1 true { id := "a9", platform := some "freebsd" } 3
      initialState "freebsd" rfl (by decide) (by decide) (by decide) (by decide)
  · exact c6_platform_fallback.2.2.2.2.2 true { id := "a9", platform := none } 3 initialState rfl

/-! ## C9: settings round-trip -/

/-- C9: for every prior settings state (and any behaviour of the
external fan-out), updating with checkInterval=60000 and then reading
the settings returns checkInterval=60000 with the other two fields
unchanged. -/
theorem c9_settings_roundtrip (liveAgents : List Agent) (updateOk : String → Bool)
    (st : PluginState) :
    getSettingsHandler
        (updateSettingsHandler liveAgents updateOk { checkInterval := some 60000 } st).1
      = { checkInterval := 60000
          killOnViolation := st.settings.killOnViolation
          notifyParent := st.settings.notifyParent } := by
  simp [getSettingsHandler, updateSettingsHandler, mergeSettings]

/-! ## C8: unlink-agent idempotence -/

theorem map_update_of_lookup_none {α : Type} (k : String) (f : α → α)
    (l : List (String × α)) (h : alookup k l = none) :
    l.map (fun p => if p.1 = k then (p.1, f p.2) else p) = l := by
  induction l with
  | nil => rfl
  | cons p rest ih =>
    by_cases hp : p.1 = k
    · simp [alookup, hp] at h
    · simp only [alookup, hp, if_neg, ite_false, List.map_cons]
      rw [ih]
      simp only [alookup, hp, ite_false] at h
      exact h

theorem alookup_map_unlink (agentId : String) (l : List (String × AgentRec)) :
    alookup agentId (l.map (fun p => if p.1 = agentId then (p.1, { p.2 with childId := none, enabled := some false }) else p))
      = (alookup agentId l).map (fun r => { r with childId := none, enabled := some false }) := by
  induction l with
  | nil => rfl
  | cons p rest ih =>
    by_cases hp : p.1 = agentId
    · simp [alookup, hp]
    · simp [alookup, hp, ih]

theorem alookup_map_link (agentId childId : String) (l : List (String × AgentRec)) :
    alookup agentId (l.map (fun p => if p.1 = agentId then (p.1, { p.2 with childId := some childId, enabled := some true }) else p))
      = (alookup agentId l).map (fun r => { r with childId := some childId, enabled := some true }) := by
  induction l with
  | nil => rfl
  | cons p rest ih =>
    by_cases hp : p.1 = agentId
    · simp [alookup, hp]
    · simp [alookup, hp, ih]

theorem map_unlink_of_lookup_none (agentId : String) (l : List (String × AgentRec))
    (h : alookup agentId l = none) :
    l.map (fun p => if p.1 = agentId then (p.1, { p.2 with childId := none, enabled := some false }) else p) = l := by
  induction l with
  | nil => rfl
  | cons p rest ih =>
    by_cases hp : p.1 = agentId
    · simp [alookup, hp] at h
    · simp only [alookup, hp, ite_false] at h
      simp [hp, ih h]

theorem unlinkAgentHandler_eq (agentId : String) (s : PluginState) :
    (unlinkAgentHandler agentId s).1
      = { s with agents := s.agents.map (fun p => if p.1 = agentId then (p.1, { p.2 with childId := none, enabled := some false }) else p) } := by
  unfold unlinkAgentHandler
  rcases h : alookup agentId s.agents with - | a
  · simp only
    rw [map_unlink_of_lookup_none agentId s.agents h]
  · rfl

/-- C8: calling the unlink-agent handler twice on the same agent id
leaves exactly the state one call leaves, both calls return success, and
after the call the agent's record (when the agent exists) has childId
null and enabled false. -/
theorem c8_unlink_idempotent (agentId : String) (st : PluginState) :
    (unlinkAgentHandler agentId st).2 = true
    ∧ (unlinkAgentHandler agentId (unlinkAgentHandler agentId st).1).2 = true
    ∧ (unlinkAgentHandler agentId (unlinkAgentHandler agentId st).1).1
        = (unlinkAgentHandler agentId st).1
    ∧ (∀ a, alookup agentId (unlinkAgentHandler agentId st).1.agents = some a →
        a.childId = none ∧ a.enabled = some false) := by
  refine ⟨rfl, rfl, ?_, ?_⟩
  · rw [unlinkAgentHandler_eq, unlinkAgentHandler_eq]
    simp only [List.map_map]
    have hfun : ((fun p => if p.1 = agentId then (p.1, { p.2 with childId := none, enabled := some false }) else p) ∘
        (fun (p : String × AgentRec) => if p.1 = agentId then (p.1, { p.2 with childId := none, enabled := some false }) else p))
        = (fun (p : String × AgentRec) => if p.1 = agentId then (p.1, { p.2 with childId := none, enabled := some false }) else p) := by
      funext p
      by_cases hp : p.1 = agentId
      · simp [hp]
      · simp [hp]
    rw [hfun]
  · intro a ha
    rw [unlinkAgentHandler_eq] at ha
    simp only at ha
    rw [alookup_map_unlink] at ha
    rcases Option.map_eq_some'.mp ha with ⟨a0, -, rfl⟩
    exact ⟨rfl, rfl⟩

/-- Witness for C8 at a concrete linked agent. -/
theorem c8_witness :
    ∀ a, alookup "a1"
        (unlinkAgentHandler "a1"
          { agents := [("a1", { id := "a1", childId := some "c1", enabled := some true })]
            policies := [], violations := [], settings := initialSettings }).1.agents = some a →
      a.childId = none ∧ a.enabled = some false :=
  (c8_unlink_idempotent "a1"
    { agents := [("a1", { id := "a1", childId := some "c1", enabled := some true })]
      policies := [], violations := [], settings := initialSettings }).2.2.2

/-! ## C10: link-agent on an unknown agent id -/

/-- C10: for an agent id absent from the agents map, linkAgent creates a
fresh record holding only the id, sets its childId and enabled flag, and
returns success. -/
theorem c10_link_unknown_agent (agentId childId : String) (st : PluginState)
    (h : alookup agentId st.agents = none) :
    (linkAgentHandler agentId childId st).2 = true
    ∧ alookup agentId (linkAgentHandler agentId childId st).1.agents
        = some { id := agentId, childId := some childId, enabled := some true } := by
  refine ⟨rfl, ?_⟩
  unfold linkAgentHandler
  rw [h]
  simp only
  rw [alookup_map_link]
  rw [alookup_aset_self agentId _ st.agents]
  rfl

/-- Witness for C10 on the empty initial state. -/
theorem c10_witness :
    (linkAgentHandler "a7" "c3" initialState).2 = true
    ∧ alookup "a7" (linkAgentHandler "a7" "c3" initialState).1.agents
        = some { id := "a7", childId := some "c3", enabled := some true } :=
  c10_link_unknown_agent "a7" "c3" initialState rfl

/-! ## C4: violation-event filtering and forwarding -/

/-- C4: a violation event is processed iff its process name contains
"steam" case-insensitively; when notify-parent is set (and the renderer
and activity sinks exist) processing forwards exactly one steamViolation
notification, writes exactly one activity entry, and places exactly one
new record at index 0 of getViolations; a filtered-out event changes
nothing and emits nothing. -/
theorem c4_violation_event (cx : Ctx) (data : ViolationData) (now : Nat) (st : PluginState)
    (hnp : st.settings.notifyParent = true) (hsr : cx.hasSendToRenderer = true)
    (hla : cx.hasLogActivity = true) :
    ((violationEvent cx data now st).2 = steamNameFilter data.processName)
    ∧ (steamNameFilter data.processName = false →
        violationEvent cx data now st = ((st, [], []), false))
    ∧ (steamNameFilter data.processName = true →
        (violationEvent cx data now st).1.2.1 = [mkViolation data now]
        ∧ (violationEvent cx data now st).1.2.2.length = 1
        ∧ getViolationsHandler 50 (violationEvent cx data now st).1.1
            = mkViolation data now :: st.violations.take 49) := by
  cases hf : steamNameFilter data.processName
  · have hev : violationEvent cx data now st = ((st, [], []), false) := by
      unfold violationEvent
      rw [hf]
      rfl
    exact ⟨by rw [hev], fun _ => hev, fun hc => by simp at hc⟩
  · have hev : violationEvent cx data now st = (handleViolation cx data now st, true) := by
      unfold violationEvent
      rw [hf]
      rfl
    refine ⟨by rw [hev], fun hc => by simp at hc, fun _ => ?_⟩
    rw [hev]
    refine ⟨by simp [handleViolation, hnp, hsr], by simp [handleViolation, hla], ?_⟩
    unfold getViolationsHandler handleViolation
    simp only
    rw [appendViolation_eq_take, List.take_take]
    have hmin : min 50 100 = 50 := by norm_num
    rw [hmin, show (50 : Nat) = 49 + 1 from rfl, List.take_succ_cons]

/-- Witness for C4 at a concrete Steam violation event. -/
theorem c4_witness :
    (violationEvent { hasSendToRenderer := true, hasLogActivity := true }
        { agentId := "A1", processName := some "Steam.exe", timestamp := some 5, hostname := "h1" }
        9 initialState).1.2.1
      = [{ agentId := "A1", processName := some "Steam.exe", timestamp := 5, hostname := "h1" }] := by
  have h := c4_violation_event { hasSendToRenderer := true, hasLogActivity := true }
    { agentId := "A1", processName := some "Steam.exe", timestamp := some 5, hostname := "h1" }
    9 initialState rfl rfl rfl
  have hfilter : steamNameFilter (some "Steam.exe") = true := by decide
  have h2 := (h.2.2 hfilter).1
  rw [h2]
  rfl

/-! ## C7: parse cache by modification time -/

theorem freshParse_post {α : Type} (dec : String → Option α) (fs : FileSys)
    (cache : VCache α) (filePath : String) (d : α) (c1 : VCache α) (b : Bool)
    (h : freshParse dec fs cache filePath = some (d, c1, b)) :
    ∃ content mtime, fs filePath = some (content, mtime)
      ∧ dec content = some d ∧ c1 = aset filePath (d, mtime) cache ∧ b = true := by
  unfold freshParse at h
  split at h
  · exact Option.noConfusion h
  · rename_i content mtime hfs
    split at h
    · exact Option.noConfusion h
    · rename_i d0 hdec
      simp only [Option.some.injEq, Prod.mk.injEq] at h
      obtain ⟨hd, hc1, hb⟩ := h
      subst hd
      exact ⟨content, mtime, hfs, hdec, hc1.symm, hb.symm⟩

theorem parseFile_post {α : Type} (dec : String → Option α) (fs : FileSys)
    (cache : VCache α) (filePath : String) (u : Bool) (d : α) (c1 : VCache α) (b : Bool)
    (h : parseFile dec fs cache filePath u = some (d, c1, b)) :
    ∃ content mtime, fs filePath = some (content, mtime)
      ∧ alookup filePath c1 = some (d, mtime) := by
  have hfresh : freshParse dec fs cache filePath = some (d, c1, b) →
      ∃ content mtime, fs filePath = some (content, mtime)
        ∧ alookup filePath c1 = some (d, mtime) := by
    intro hf
    rcases freshParse_post dec fs cache filePath d c1 b hf with ⟨content, mtime, h1, -, h3, -⟩
    exact ⟨content, mtime, h1, by rw [h3]; exact alookup_aset_self filePath _ cache⟩
  unfold parseFile at h
  split at h
  · split at h
    · rename_i d0 cm hc
      split at h
      · exact Option.noConfusion h
      · rename_i fst mtime hfs
        split at h
        · rename_i hm
          simp only [Option.some.injEq, Prod.mk.injEq] at h
          exact ⟨fst, mtime, hfs, by rw [← h.2.1, hc, h.1, hm]⟩
        · exact hfresh h
    · exact hfresh h
  · exact hfresh h

/-- C7: after any successful parse, a second parse call with
useCache=true returns the identical cached data without re-decoding
(and leaves the cache unchanged) whenever the modification time of the file
is unchanged — even if the content changed; when the modification time
has changed, the file is re-read and re-decoded and the cache entry is
replaced with the fresh result. -/
theorem c7_parse_cache {α : Type} (dec : String → Option α) (fs fs2 : FileSys)
    (cache : VCache α) (filePath content : String) (m : Nat) (u : Bool)
    (d : α) (c1 : VCache α) (b : Bool)
    (h : parseFile dec fs cache filePath u = some (d, c1, b))
    (hfs : fs filePath = some (content, m)) :
    (∀ content2, fs2 filePath = some (content2, m) →
        parseFile dec fs2 c1 filePath true = some (d, c1, false))
    ∧ (∀ content2 m2 d2, fs2 filePath = some (content2, m2) → m2 ≠ m →
        dec content2 = some d2 →
        parseFile dec fs2 c1 filePath true = some (d2, aset filePath (d2, m2) c1, true)) := by
  rcases parseFile_post dec fs cache filePath u d c1 b h with ⟨content0, mtime0, h1, h2⟩
  rw [hfs] at h1
  have hm0 : mtime0 = m := by
    have h1s := h1.symm
    simp only [Option.some.injEq, Prod.mk.injEq] at h1s
    exact h1s.2
  rw [hm0] at h2
  constructor
  · intro content2 hfs2
    unfold parseFile
    rw [if_pos rfl, h2, hfs2]
    show (if m = m then some (d, c1, false) else freshParse dec fs2 c1 filePath)
      = some (d, c1, false)
    rw [if_pos rfl]
  · intro content2 m2 d2 hfs2 hne d2h
    unfold parseFile
    rw [if_pos rfl, h2, hfs2]
    show (if m = m2 then some (d, c1, false) else freshParse dec fs2 c1 filePath)
      = some (d2, aset filePath (d2, m2) c1, true)
    rw [if_neg (fun hc => hne hc.symm)]
    unfold freshParse
    rw [hfs2]
    show (match dec content2 with
      | none => none
      | some d => some (d, aset filePath (d, m2) c1, true)) = some (d2, aset filePath (d2, m2) c1, true)
    rw [d2h]

/-- Witness for C7: a concrete decoder and two filesystems, one with an
unchanged and one with a changed modification time. -/
theorem c7_witness :
    parseFile (fun s => some s.length) (fun _ => some ("ab", 5))
        [("f", (2, 5))] "f" true = some (2, [("f", (2, 5))], false)
    ∧ parseFile (fun s => some s.length) (fun _ => some ("abcd", 7))
        [("f", (2, 5))] "f" true = some (4, [("f", (4, 7))], true) := by
  constructor
  · exact (c7_parse_cache (fun s => some s.length) (fun _ => some ("ab", 5))
      (fun _ => some ("ab", 5)) [] "f" "ab" 5 true 2 [("f", (2, 5))] true rfl rfl).1 "ab" rfl
  · exact (c7_parse_cache (fun s => some s.length) (fun _ => some ("ab", 5))
      (fun _ => some ("abcd", 7)) [] "f" "ab" 5 true 2 [("f", (2, 5))] true rfl rfl).2
      "abcd" 7 4 rfl (by decide) rfl

/-! ## C2: fan-out error isolation -/

theorem configureAll_cons_some (createOk : String → Bool) (now : Nat) (a : Agent)
    (rest : List Agent) (st : PluginState) (call : CreatePolicyCall) (st1 : PluginState)
    (h : configureSteamPolicy (createOk a.id) a now st = some (call, st1)) :
    configureAll createOk now (a :: rest) st
      = ((configureAll createOk now rest st1).1, call :: (configureAll createOk now rest st1).2) := by
  simp only [configureAll]
  rw [h]

theorem configureAll_attempts_all (createOk : String → Bool) (now : Nat)
    (ags : List Agent) (st : PluginState)
    (hres : ∀ a ∈ ags, (processNamesTable (jsOrStr a.platform "win32")).isSome = true) :
    ((configureAll createOk now ags st).2).map CreatePolicyCall.agentId = ags.map Agent.id := by
  induction ags generalizing st with
  | nil => rfl
  | cons a rest ih =>
    rcases Option.isSome_iff_exists.mp (hres a (List.mem_cons_self a rest)) with ⟨names, hnames⟩
    rw [configureAll_cons_some createOk now a rest st _ _
      (configureSteamPolicy_eq (createOk a.id) a now st names hnames)]
    simp only [List.map_cons]
    rw [ih _ (fun b hb => hres b (List.mem_cons_of_mem a hb))]

theorem propagate_cons_fail (updateOk : String → Bool) (policies : List (String × PolicyRec))
    (a : Agent) (rest : List Agent) (pr : PolicyRec)
    (hpol : alookup a.id policies = some pr) (hfail : updateOk a.id = false) :
    propagateCheckInterval updateOk policies (a :: rest) = ([a.id], false) := by
  simp only [propagateCheckInterval]
  rw [hpol, hfail]
  rfl

theorem propagate_cons_ok (updateOk : String → Bool) (policies : List (String × PolicyRec))
    (a : Agent) (rest : List Agent) (pr : PolicyRec)
    (hpol : alookup a.id policies = some pr) (hok : updateOk a.id = true) :
    propagateCheckInterval updateOk policies (a :: rest)
      = (a.id :: (propagateCheckInterval updateOk policies rest).1,
         (propagateCheckInterval updateOk policies rest).2) := by
  simp only [propagateCheckInterval]
  rw [hpol, hok]
  rfl

theorem propagate_cons_none (updateOk : String → Bool) (policies : List (String × PolicyRec))
    (a : Agent) (rest : List Agent)
    (hpol : alookup a.id policies = none) :
    propagateCheckInterval updateOk policies (a :: rest)
      = propagateCheckInterval updateOk policies rest := by
  simp only [propagateCheckInterval]
  rw [hpol]

theorem propagate_aborts (updateOk : String → Bool) (policies : List (String × PolicyRec))
    (pre : List Agent) (bad : Agent) (post : List Agent)
    (hpre : ∀ a ∈ pre, updateOk a.id = true)
    (hbad : updateOk bad.id = false)
    (hpol : (alookup bad.id policies).isSome = true) :
    propagateCheckInterval updateOk policies (pre ++ bad :: post)
      = ((pre.filter (fun a => (alookup a.id policies).isSome)).map Agent.id ++ [bad.id], false) := by
  induction pre with
  | nil =>
    rcases Option.isSome_iff_exists.mp hpol with ⟨pr, hpr⟩
    simpa using propagate_cons_fail updateOk policies bad post pr hpr hbad
  | cons a pre ih =>
    have hih := ih (fun b hb => hpre b (List.mem_cons_of_mem a hb))
    rcases hp : alookup a.id policies with - | pr
    · rw [List.cons_append, propagate_cons_none updateOk policies a _ hp, hih]
      simp [List.filter_cons, hp]
    · rw [List.cons_append,
        propagate_cons_ok updateOk policies a _ pr hp (hpre a (List.mem_cons_self a pre)), hih]
      simp [List.filter_cons, hp]

/-- C2 counterexample: with three agents all holding registered policies
and the external updatePolicy call failing for the second one, the
settings-propagation fan-out returns the error (not success) and never
attempts the third agent's call — contradicting the claim that one
agent's failure is logged and skipped and the remaining agents' calls
are still attempted. -/
theorem c2_counterexample :
    ((updateSettingsHandler [{ id := "a1" }, { id := "a2" }, { id := "a3" }]
        (fun s => !(s = "a2")) { checkInterval := some 60000 }
        { agents := []
          policies := [("a1", { processName := "Steam.exe", alternativeProcesses := winProcessNames, allowed := false, checkInterval := 30000, createdAt := 0 }),
                       ("a2", { processName := "Steam.exe", alternativeProcesses := winProcessNames, allowed := false, checkInterval := 30000, createdAt := 0 }),
                       ("a3", { processName := "Steam.exe", alternativeProcesses := winProcessNames, allowed := false, checkInterval := 30000, createdAt := 0 })]
          violations := []
          settings := initialSettings }).2.1 = false)
    ∧ ((updateSettingsHandler [{ id := "a1" }, { id := "a2" }, { id := "a3" }]
        (fun s => !(s = "a2")) { checkInterval := some 60000 }
        { agents := []
          policies := [("a1", { processName := "Steam.exe", alternativeProcesses := winProcessNames, allowed := false, checkInterval := 30000, createdAt := 0 }),
                       ("a2", { processName := "Steam.exe", alternativeProcesses := winProcessNames, allowed := false, checkInterval := 30000, createdAt := 0 }),
                       ("a3", { processName := "Steam.exe", alternativeProcesses := winProcessNames, allowed := false, checkInterval := 30000, createdAt := 0 })]
          violations := []
          settings := initialSettings }).2.2 = ["a1", "a2"])
    ∧ ¬ ("a3" ∈ (updateSettingsHandler [{ id := "a1" }, { id := "a2" }, { id := "a3" }]
        (fun s => !(s = "a2")) { checkInterval := some 60000 }
        { agents := []
          policies := [("a1", { processName := "Steam.exe", alternativeProcesses := winProcessNames, allowed := false, checkInterval := 30000, createdAt := 0 }),
                       ("a2", { processName := "Steam.exe", alternativeProcesses := winProcessNames, allowed := false, checkInterval := 30000, createdAt := 0 }),
                       ("a3", { processName := "Steam.exe", alternativeProcesses := winProcessNames, allowed := false, checkInterval := 30000, createdAt := 0 })]
          violations := []
          settings := initialSettings }).2.2) := by
  refine ⟨?_, ?_, ?_⟩ <;> decide

/-- C2 (amended): in the policy-configuration fan-out a failed external
createPolicy call is isolated per agent — every agent's call is still
attempted no matter which createPolicy calls fail; in the
settings-propagation fan-out the first failing updatePolicy call aborts
the loop: the calls for the agents after the failing one are never
attempted and the handler returns the error. -/
theorem c2_fanout_isolation :
    (∀ (createOk : String → Bool) (now : Nat) (ags : List Agent) (st : PluginState),
      (∀ a ∈ ags, (processNamesTable (jsOrStr a.platform "win32")).isSome = true) →
      ((configureAll createOk now ags st).2).map CreatePolicyCall.agentId = ags.map Agent.id)
    ∧ (∀ (updateOk : String → Bool) (policies : List (String × PolicyRec))
        (pre : List Agent) (bad : Agent) (post : List Agent),
        (∀ a ∈ pre, updateOk a.id = true) → updateOk bad.id = false →
        (alookup bad.id policies).isSome = true →
        propagateCheckInterval updateOk policies (pre ++ bad :: post)
          = ((pre.filter (fun a => (alookup a.id policies).isSome)).map Agent.id ++ [bad.id], false)) :=
  ⟨configureAll_attempts_all, propagate_aborts⟩

/-- Witness for C2 (amended): two agents with the first createPolicy
call failing, and a propagation run aborting at the middle agent. -/
theorem c2_witness :
    ((configureAll (fun s => !(s = "b1")) 3
        [{ id := "b1", platform := some "win32" }, { id := "b2", platform := some "linux" }]
        initialState).2).map CreatePolicyCall.agentId = ["b1", "b2"]
    ∧ propagateCheckInterval (fun s => !(s = "a2"))
        [("a1", { processName := "steam", alternativeProcesses := [], allowed := false, checkInterval := 1, createdAt := 0 }),
         ("a2", { processName := "steam", alternativeProcesses := [], allowed := false, checkInterval := 1, createdAt := 0 })]
        [{ id := "a1" }, { id := "a2" }, { id := "a3" }] = (["a1", "a2"], false) := by
  constructor
  · exact c2_fanout_isolation.1 (fun s => !(s = "b1")) 3
      [{ id := "b1", platform := some "win32" }, { id := "b2", platform := some "linux" }]
      initialState (by decide)
  · exact c2_fanout_isolation.2 (fun s => !(s = "a2"))
      [("a1", { processName := "steam", alternativeProcesses := [], allowed := false, checkInterval := 1, createdAt := 0 }),
       ("a2", { processName := "steam", alternativeProcesses := [], allowed := false, checkInterval := 1, createdAt := 0 })]
      [{ id := "a1" }] { id := "a2" } [{ id := "a3" }] (by decide) (by decide) (by decide)

/-! ## C1: authorization-state reconciliation -/

theorem updateSteamPolicy_call (ok : Bool) (ag : Agent) (a2 : Allow2State) (now : Nat)
    (st : PluginState) :
    (updateSteamPolicy ok ag a2 now st).2.allowed = (!a2.paused && decide (a2.quota > 0)) := by
  cases ok <;> rfl

theorem updateSteamPolicy_true_agents (ag : Agent) (a2 : Allow2State) (now : Nat)
    (st : PluginState) :
    (updateSteamPolicy true ag a2 now st).1.agents
      = setAgentAllowed ag.id (!a2.paused && decide (a2.quota > 0)) now st.agents := rfl

theorem updateSteamPolicy_false_state (ag : Agent) (a2 : Allow2State) (now : Nat)
    (st : PluginState) :
    (updateSteamPolicy false ag a2 now st).1 = st := rfl

theorem alookup_setAgentAllowed_self (k : String) (v : Bool) (now : Nat)
    (ags : List (String × AgentRec)) :
    alookup k (setAgentAllowed k v now ags)
      = (alookup k ags).map (fun r => { r with allowed := some v, lastUpdate := some now }) := by
  induction ags with
  | nil => rfl
  | cons p rest ih =>
    by_cases hp : p.1 = k
    · simp [setAgentAllowed, alookup, hp]
    · simp [setAgentAllowed, alookup, hp] at ih ⊢
      exact ih

theorem alookup_setAgentAllowed_ne (k k2 : String) (hne : k ≠ k2) (v : Bool) (now : Nat)
    (ags : List (String × AgentRec)) :
    alookup k (setAgentAllowed k2 v now ags) = alookup k ags := by
  induction ags with
  | nil => rfl
  | cons p rest ih =>
    by_cases hp : p.1 = k2
    · have hk2 : ¬(k2 = k) := fun hc => hne hc.symm
      simp [setAgentAllowed, alookup, hp, hk2] at ih ⊢
      exact ih
    · simp [setAgentAllowed, alookup, hp] at ih ⊢
      by_cases hq : p.1 = k
      · simp [hq]
      · simp [hq]
        exact ih

theorem updateSteamPolicy_lookup_ne (ok : Bool) (ag : Agent) (a2 : Allow2State) (now : Nat)
    (st : PluginState) (k : String) (hne : k ≠ ag.id) :
    alookup k (updateSteamPolicy ok ag a2 now st).1.agents = alookup k st.agents := by
  cases ok
  · rfl
  · rw [updateSteamPolicy_true_agents]
    exact alookup_setAgentAllowed_ne k ag.id hne _ now st.agents

theorem updateSteamPolicy_pres (ok : Bool) (ag : Agent) (a2 : Allow2State) (now : Nat)
    (st : PluginState) (k : String)
    (h : ∃ q, alookup k st.agents = some q
      ∧ q.allowed = some (!a2.paused && decide (a2.quota > 0))) :
    ∃ q, alookup k (updateSteamPolicy ok ag a2 now st).1.agents = some q
      ∧ q.allowed = some (!a2.paused && decide (a2.quota > 0)) := by
  cases ok
  · exact h
  · rw [updateSteamPolicy_true_agents]
    by_cases hk : k = ag.id
    · rw [← hk, alookup_setAgentAllowed_self]
      rcases h with ⟨q, hq, -⟩
      rw [hq]
      exact ⟨_, rfl, rfl⟩
    · rw [alookup_setAgentAllowed_ne k ag.id hk]
      exact h

theorem stateChangeGo_cons_none (getAgent : String → Option Agent) (updateOk : String → Bool)
    (a2 : Allow2State) (now : Nat) (ar : AgentRec) (rest : List AgentRec) (st : PluginState)
    (hga : getAgent ar.id = none) :
    stateChangeGo getAgent updateOk a2 now (ar :: rest) st
      = stateChangeGo getAgent updateOk a2 now rest st := by
  simp only [stateChangeGo]
  rw [hga]

theorem stateChangeGo_cons_some (getAgent : String → Option Agent) (updateOk : String → Bool)
    (a2 : Allow2State) (now : Nat) (ar : AgentRec) (rest : List AgentRec) (st : PluginState)
    (ag : Agent) (hga : getAgent ar.id = some ag) :
    stateChangeGo getAgent updateOk a2 now (ar :: rest) st
      = ((stateChangeGo getAgent updateOk a2 now rest
            (updateSteamPolicy (updateOk ag.id) ag a2 now st).1).1,
         (updateSteamPolicy (updateOk ag.id) ag a2 now st).2
           :: (stateChangeGo getAgent updateOk a2 now rest
            (updateSteamPolicy (updateOk ag.id) ag a2 now st).1).2) := by
  simp only [stateChangeGo]
  rw [hga]

theorem stateChangeGo_calls (getAgent : String → Option Agent) (updateOk : String → Bool)
    (a2 : Allow2State) (now : Nat) (l : List AgentRec) (st : PluginState) :
    ∀ cl ∈ (stateChangeGo getAgent updateOk a2 now l st).2,
      cl.allowed = (!a2.paused && decide (a2.quota > 0)) := by
  induction l generalizing st with
  | nil =>
    intro cl hcl
    simp [stateChangeGo] at hcl
  | cons ar rest ih =>
    intro cl hcl
    rcases hga : getAgent ar.id with - | ag
    · rw [stateChangeGo_cons_none getAgent updateOk a2 now ar rest st hga] at hcl
      exact ih st cl hcl
    · rw [stateChangeGo_cons_some getAgent updateOk a2 now ar rest st ag hga] at hcl
      simp only at hcl
      rcases List.mem_cons.mp hcl with h1 | h1
      · rw [h1]
        exact updateSteamPolicy_call (updateOk ag.id) ag a2 now st
      · exact ih _ cl h1

theorem stateChangeGo_length (getAgent : String → Option Agent) (updateOk : String → Bool)
    (a2 : Allow2State) (now : Nat) (l : List AgentRec) (st : PluginState)
    (hall : ∀ b ∈ l, (getAgent b.id).isSome = true) :
    (stateChangeGo getAgent updateOk a2 now l st).2.length = l.length := by
  induction l generalizing st with
  | nil => rfl
  | cons ar rest ih =>
    rcases hga : getAgent ar.id with - | ag
    · have := hall ar (List.mem_cons_self ar rest)
      rw [hga] at this
      simp at this
    · rw [stateChangeGo_cons_some getAgent updateOk a2 now ar rest st ag hga]
      simp only [List.length_cons]
      rw [ih _ (fun b hb => hall b (List.mem_cons_of_mem ar hb))]

theorem stateChangeGo_preserves (getAgent : String → Option Agent) (updateOk : String → Bool)
    (a2 : Allow2State) (now : Nat) (l : List AgentRec) (st : PluginState) (k : String)
    (h : ∃ q, alookup k st.agents = some q
      ∧ q.allowed = some (!a2.paused && decide (a2.quota > 0))) :
    ∃ q, alookup k (stateChangeGo getAgent updateOk a2 now l st).1.agents = some q
      ∧ q.allowed = some (!a2.paused && decide (a2.quota > 0)) := by
  induction l generalizing st with
  | nil => exact h
  | cons ar rest ih =>
    rcases hga : getAgent ar.id with - | ag
    · rw [stateChangeGo_cons_none getAgent updateOk a2 now ar rest st hga]
      exact ih st h
    · rw [stateChangeGo_cons_some getAgent updateOk a2 now ar rest st ag hga]
      exact ih _ (updateSteamPolicy_pres (updateOk ag.id) ag a2 now st k h)

theorem stateChangeGo_sets (getAgent : String → Option Agent) (updateOk : String → Bool)
    (a2 : Allow2State) (now : Nat)
    (hid : ∀ s a, getAgent s = some a → a.id = s)
    (hok : ∀ s, updateOk s = true)
    (l : List AgentRec) (st : PluginState) (ar : AgentRec)
    (har : ar ∈ l) (hga : (getAgent ar.id).isSome = true)
    (hlk : (alookup ar.id st.agents).isSome = true) :
    ∃ q, alookup ar.id (stateChangeGo getAgent updateOk a2 now l st).1.agents = some q
      ∧ q.allowed = some (!a2.paused && decide (a2.quota > 0)) := by
  induction l generalizing st with
  | nil => cases har
  | cons b rest ih =>
    rcases hgb : getAgent b.id with - | ag
    · rw [stateChangeGo_cons_none getAgent updateOk a2 now b rest st hgb]
      rcases List.mem_cons.mp har with h1 | h1
      · rw [h1] at hga
        rw [hgb] at hga
        simp at hga
      · exact ih st h1 hlk
    · have hagid : ag.id = b.id := hid _ _ hgb
      rw [stateChangeGo_cons_some getAgent updateOk a2 now b rest st ag hgb]
      by_cases hkey : ar.id = b.id
      · apply stateChangeGo_preserves
        rw [hok ag.id, updateSteamPolicy_true_agents, hagid, ← hkey,
          alookup_setAgentAllowed_self]
        rcases Option.isSome_iff_exists.mp hlk with ⟨q0, hq0⟩
        rw [hq0]
        exact ⟨_, rfl, rfl⟩
      · have hne : ar.id ≠ ag.id := by rw [hagid]; exact hkey
        have hlk2 : (alookup ar.id (updateSteamPolicy (updateOk ag.id) ag a2 now st).1.agents).isSome = true := by
          rw [updateSteamPolicy_lookup_ne (updateOk ag.id) ag a2 now st ar.id hne]
          exact hlk
        have hmem : ar ∈ rest := by
          rcases List.mem_cons.mp har with h1 | h1
          · rw [h1] at hkey
            exact absurd rfl hkey
          · exact h1
        exact ih _ hmem hlk2

/-- C1: on an authorization-state update for a child, every linked agent
(with a registered policy and a fetchable live record) receives exactly
one update-policy call whose allowed flag equals
(not paused AND quota > 0), and the stored per-agent state records that
same allowed value. -/
theorem c1_reconcile_allowed (getAgent : String → Option Agent) (updateOk : String → Bool)
    (childId : String) (a2 : Allow2State) (now : Nat) (st : PluginState)
    (hkey : ∀ p ∈ st.agents, p.2.id = p.1)
    (hid : ∀ s a, getAgent s = some a → a.id = s)
    (hok : ∀ s, updateOk s = true)
    (hlive : ∀ p ∈ st.agents, p.2.childId = some childId → (getAgent p.2.id).isSome = true)
    (hpol : ∀ p ∈ st.agents, p.2.childId = some childId →
      (alookup p.1 st.policies).isSome = true) :
    (∀ cl ∈ (stateChangeHandler getAgent updateOk childId a2 now st).2,
        cl.allowed = (!a2.paused && decide (a2.quota > 0)))
    ∧ (stateChangeHandler getAgent updateOk childId a2 now st).2.length
        = (st.agents.filter (fun p => p.2.childId = some childId)).length
    ∧ (∀ p ∈ st.agents, p.2.childId = some childId →
        ∃ q, alookup p.1 (stateChangeHandler getAgent updateOk childId a2 now st).1.agents
              = some q
          ∧ q.allowed = some (!a2.paused && decide (a2.quota > 0))) := by
  simp only [stateChangeHandler]
  refine ⟨?_, ?_, ?_⟩
  · exact fun cl hcl => stateChangeGo_calls getAgent updateOk a2 now _ st cl hcl
  · rw [stateChangeGo_length getAgent updateOk a2 now _ st ?_]
    · exact List.length_map _ _
    · intro b hb
      rcases List.mem_map.mp hb with ⟨p, hpf, hpb⟩
      rcases List.mem_filter.mp hpf with ⟨hpmem, hpcond⟩
      rw [← hpb]
      exact hlive p hpmem (of_decide_eq_true hpcond)
  · intro p hp hchild
    have hmemf : p ∈ st.agents.filter (fun q => q.2.childId = some childId) :=
      List.mem_filter.mpr ⟨hp, by rw [hchild]; simp⟩
    have hmeml : p.2 ∈ (st.agents.filter (fun q => q.2.childId = some childId)).map Prod.snd :=
      List.mem_map_of_mem Prod.snd hmemf
    have hlk : (alookup p.2.id st.agents).isSome = true := by
      rw [hkey p hp]
      exact alookup_isSome_of_mem p.1 p.2 st.agents hp
    have hres := stateChangeGo_sets getAgent updateOk a2 now hid hok
      ((st.agents.filter (fun q => q.2.childId = some childId)).map Prod.snd) st p.2 hmeml
      (hlive p hp hchild) hlk
    rw [hkey p hp] at hres
    exact hres

/-- Witness for C1: one linked agent with a registered policy, an
unpaused update with positive quota driving allowed to true. -/
theorem c1_witness :
    ∃ q, alookup "a1"
        (stateChangeHandler (fun s => some { id := s }) (fun _ => true) "c1"
          { paused := false, quota := 10 } 7
          { agents := [("a1", { id := "a1", childId := some "c1" })]
            policies := [("a1", { processName := "Steam.exe", alternativeProcesses := winProcessNames, allowed := false, checkInterval := 30000, createdAt := 0 })]
            violations := []
            settings := initialSettings }).1.agents = some q
      ∧ q.allowed = some true := by
  have h := c1_reconcile_allowed (fun s => some { id := s }) (fun _ => true) "c1"
    { paused := false, quota := 10 } 7
    { agents := [("a1", { id := "a1", childId := some "c1" })]
      policies := [("a1", { processName := "Steam.exe", alternativeProcesses := winProcessNames, allowed := false, checkInterval := 30000, createdAt := 0 })]
      violations := []
      settings := initialSettings }
    (by decide)
    (by intro s a hsa; injection hsa with h2; rw [← h2])
    (fun s => rfl)
    (fun p hp hc => rfl)
    (by decide)
  rcases h.2.2 ("a1", { id := "a1", childId := some "c1" }) (by decide) rfl with ⟨q, hq, hal⟩
  exact ⟨q, hq, hal⟩
